import Mathlib

/-!
Verification of the Supfile configuration model (`supfile.go`).

The Go source is shallowly embedded below.  External collaborators are
modelled as explicit parameters:

* the YAML decoder's two views of a named collection (the unordered map and
  the ordered key/value slice) are passed in as association lists;
* the operating-system user lookup (`user.Current`), the SSH-config lookup
  table (`extractedHostSSHConfig`) and the path normalizer (`ResolvePath`)
  are parameters of `NewHost`;
* a shell subprocess (`exec.Command("bash", "-c", script)` resp.
  `exec.Command("/bin/sh", "-c", cmd)`) is an oracle from the script text to
  `Option String`: `some out` is a successful run capturing stdout `out`,
  `none` is a failed run.

Strings are modelled as sequences of characters; the Go code indexes bytes,
which agrees with this model on ASCII data (all data exercised here).
-/

/-- `Upload` struct of the source: file copy operation. -/
structure Upload where
  Src : String := ""
  Dst : String := ""
  Exc : String := ""
deriving DecidableEq

/-- `Command` struct of the source.  Field `Upload` is renamed `Uploads` to
avoid clashing with the `Upload` type; `Local` keeps its Go name. -/
structure Command where
  Name : String := ""
  Desc : String := ""
  Local : Bool := false
  Run : String := ""
  Script : String := ""
  Uploads : List Upload := []
  Stdin : Bool := false
  Once : Bool := false
  Serial : Int := 0
  RunOnce : Bool := false
deriving DecidableEq

/-- `EnvVar` struct of the source. -/
structure EnvVar where
  Key : String
  Value : String
deriving DecidableEq

/-- `EnvList` of the source: an ordered list of environment variables. -/
abbrev EnvList := List EnvVar

/-- `EnvVar.String()`: renders `KEY=VALUE`. -/
def EnvVar.render (e : EnvVar) : String :=
  e.Key ++ "=" ++ e.Value

/-- `EnvVar.AsExport()`: renders `export KEY="VALUE";`. -/
def EnvVar.AsExport (e : EnvVar) : String :=
  "export " ++ e.Key ++ "=\"" ++ e.Value ++ "\";"

/-- `EnvList.Slice()`: every entry rendered as `KEY=VALUE`, in order. -/
def EnvList.Slice (e : EnvList) : List String :=
  e.map EnvVar.render

/-- `Host` struct of the source. -/
structure Host where
  Address : String := ""
  Port : String := ""
  User : String := ""
  IdentityFile : String := ""
  KnownAs : String := ""
  Bastion : String := ""
deriving DecidableEq

/-- `Network` struct of the source.  The `Hosts` field (built from
`HostsFromConfig` during unmarshalling) is kept for completeness. -/
structure Network where
  Env : EnvList := []
  Inventory : String := ""
  Hosts : List Host := []
  HostsFromConfig : List String := []
  Bastion : String := ""
deriving DecidableEq

/-- `Networks` struct of the source: declaration-ordered names plus the
name-keyed store (the Go `map[string]Network`, modelled as an association
list with unique keys). -/
structure Networks where
  Names : List String := []
  nets : List (String × Network) := []
deriving DecidableEq

/-- `Commands` struct of the source. -/
structure Commands where
  Names : List String := []
  cmds : List (String × Command) := []
deriving DecidableEq

/-- `Targets` struct of the source. -/
structure Targets where
  Names : List String := []
  targets : List (String × List String) := []
deriving DecidableEq

/-- `Supfile` struct of the source. -/
structure Supfile where
  Networks : Networks := {}
  Commands : Commands := {}
  Targets : Targets := {}
  Env : EnvList := []
  Version : String := ""
deriving DecidableEq

/-- `Networks.Get`: Go map lookup, `none` models the `ok = false` case. -/
def Networks.Get (n : Networks) (name : String) : Option Network :=
  (n.nets.find? (fun p => p.1 == name)).map Prod.snd

/-- `Commands.Get`. -/
def Commands.Get (c : Commands) (name : String) : Option Command :=
  (c.cmds.find? (fun p => p.1 == name)).map Prod.snd

/-- `Targets.Get`. -/
def Targets.Get (t : Targets) (name : String) : Option (List String) :=
  (t.targets.find? (fun p => p.1 == name)).map Prod.snd

/-!
`UnmarshalYAML` of `Networks`/`Commands`/`Targets`: the decoder is called
twice, once into the unordered map (`mapDecoded`, whose internal order the
decoder does not promise) and once into an ordered `yaml.MapSlice`
(`items`); `Names` is built from the ordered slice only.
-/

/-- `Networks.UnmarshalYAML` (source lines 143-161). -/
def Networks.UnmarshalYAML (mapDecoded : List (String × Network))
    (items : List (String × Network)) : Networks :=
  { nets := mapDecoded, Names := items.map Prod.fst }

/-- `Commands.UnmarshalYAML` (source lines 195-213). -/
def Commands.UnmarshalYAML (mapDecoded : List (String × Command))
    (items : List (String × Command)) : Commands :=
  { cmds := mapDecoded, Names := items.map Prod.fst }

/-- `Targets.UnmarshalYAML` (source lines 226-244). -/
def Targets.UnmarshalYAML (mapDecoded : List (String × List String))
    (items : List (String × List String)) : Targets :=
  { targets := mapDecoded, Names := items.map Prod.fst }

/-- The two error types of the source, `ErrMustUpdate` and
`ErrUnsupportedSupfileVersion`, as one inductive of distinct kinds. -/
inductive SupError where
  | mustUpdate (msg : String)
  | unsupportedVersion (msg : String)
deriving DecidableEq

/-- Is the error of the `ErrMustUpdate` kind? -/
def SupError.isMustUpdate : SupError → Bool
  | .mustUpdate _ => true
  | .unsupportedVersion _ => false

/-- The `case "0.1"` check of `NewSupfile`: first command still using
`run_once` is rejected.  Go iterates the `cmds` map in unspecified order;
the association-list order stands in for it (every error this check can
produce is the same `ErrMustUpdate` value). -/
def check01 (conf : Supfile) : Option SupError :=
  conf.Commands.cmds.findSome? (fun p =>
    if p.2.RunOnce then
      some (.mustUpdate ("command.run_once is not supported in Supfile v" ++ conf.Version))
    else none)

/-- Per-command part of the `case "0.2"` check of `NewSupfile`. -/
def check02cmd (v : String) (c : Command) : Option SupError :=
  if c.Once then some (.mustUpdate ("command.once is not supported in Supfile v" ++ v))
  else if c.Local then some (.mustUpdate ("command.local is not supported in Supfile v" ++ v))
  else if c.Serial != 0 then some (.mustUpdate ("command.serial is not supported in Supfile v" ++ v))
  else none

/-- Per-network part of the `case "0.2"` check of `NewSupfile`. -/
def check02net (v : String) (n : Network) : Option SupError :=
  if n.Inventory != "" then
    some (.mustUpdate ("network.inventory is not supported in Supfile v" ++ v))
  else none

/-- The `case "0.2"` check of `NewSupfile`: commands are scanned before
networks, mirroring the two loops of the source. -/
def check02 (conf : Supfile) : Option SupError :=
  match conf.Commands.cmds.findSome? (fun p => check02cmd conf.Version p.2) with
  | some e => some e
  | none => conf.Networks.nets.findSome? (fun p => check02net conf.Version p.2)

/-- The `case "0.3"` migration of one command: `cmd.Once = true` is set when
`cmd.RunOnce` holds; the command is otherwise written back unchanged.  The
source does not clear `RunOnce`. -/
def migrateCmd (c : Command) : Command :=
  if c.RunOnce then { c with Once := true } else c

/-- In-place migration of the whole command map (`case "0.3"`, the loop over
`conf.Commands.cmds`). -/
def Commands.migrate (cs : Commands) : Commands :=
  { cs with cmds := cs.cmds.map (fun p => (p.1, migrateCmd p.2)) }

/-- Does any command still carry the deprecated `run_once` flag? -/
def anyRunOnce (conf : Supfile) : Bool :=
  conf.Commands.cmds.any (fun p => p.2.RunOnce)

/-- The text written to stderr at `case "0.3"` when at least one command was
migrated: the `warning` variable (which already ends in a newline) plus the
extra newline appended by `fmt.Fprintln`. -/
def deprecationWarning (v : String) : String :=
  "Warning: command.run_once was deprecated by command.once in Supfile v" ++ v ++ "\n" ++ "\n"

/-- The `case "0.3"` step of `NewSupfile`: migrate every offending command
and emit the warning text at most once — the source keeps a single `warning`
string variable, overwritten per offending command and printed once after
the loop.  The second component lists the writes to stderr. -/
def gate03 (conf : Supfile) : Supfile × List String :=
  ({ conf with Commands := conf.Commands.migrate },
   if anyRunOnce conf then [deprecationWarning conf.Version] else [])

/-- The version `switch` of `NewSupfile` (source lines 379-430), after the
empty version has been defaulted: the Go `fallthrough` chain is unrolled, so
version `0.1` runs the 0.1 check, the 0.2 check and the 0.3 migration, and
so on. -/
def gateVersion (conf : Supfile) : Except SupError (Supfile × List String) :=
  if conf.Version = "0.1" then
    match check01 conf with
    | some e => .error e
    | none =>
      match check02 conf with
      | some e => .error e
      | none => .ok (gate03 conf)
  else if conf.Version = "0.2" then
    match check02 conf with
    | some e => .error e
    | none => .ok (gate03 conf)
  else if conf.Version = "0.3" then .ok (gate03 conf)
  else if conf.Version = "0.4" then .ok (conf, [])
  else if conf.Version = "0.5" then .ok (conf, [])
  else .error (.unsupportedVersion ("unsupported Supfile version " ++ conf.Version))

/-- `NewSupfile` from the already-decoded document (the YAML decoding itself
is the external `yaml.Unmarshal`): the empty version defaults to `"0.1"`,
then the version gate runs.  On success the second component is the list of
warning texts written to stderr. -/
def NewSupfile (conf0 : Supfile) : Except SupError (Supfile × List String) :=
  gateVersion (if conf0.Version = "" then { conf0 with Version := "0.1" } else conf0)

/-!
Host resolver (`NewHost`, source lines 87-135) and its external
collaborators: `user.Current`, `net.SplitHostPort`, the SSH-config table and
`ResolvePath`.
-/

/-- One record of the external `extractedHostSSHConfig` table.  The Go code
reads `conf.Host[0]`; the external ssh-config parser guarantees a non-empty
alias list, modelled here with `headD ""`. -/
structure SSHConfigEntry where
  Host : List String := []
  HostName : String := ""
  User : String := ""
  Port : Int := 0
  IdentityFile : String := ""
  ProxyJump : String := ""
deriving DecidableEq

/-- Errors `NewHost` can return. -/
inductive HostError where
  /-- `user.Current()` failed; Go propagates the OS error as-is. -/
  | currentUserFailed
  /-- `fmt.Errorf("unexpected slash in the host URL")`. -/
  | unexpectedSlash
  /-- A `net.AddrError` from `net.SplitHostPort`, carrying the address and
  the reason text. -/
  | addrError (addr : String) (why : String)
deriving DecidableEq

/-- Index of the last occurrence of `c` in `cs` (Go's `last` helper in the
`net` package, and `strings.LastIndex` for one-character needles). -/
def lastIdxOf (c : Char) (cs : List Char) : Option Nat :=
  match cs.reverse.findIdx? (fun ch => ch == c) with
  | none => none
  | some j => some (cs.length - 1 - j)

/-- Models Go `net.SplitHostPort`: the port starts after the last colon; a
leading bracket delimits an IPv6 host; stray colons or brackets are
rejected.  Returns `(host, port)`. -/
def splitHostPort (hostPort : List Char) : Except HostError (List Char × List Char) :=
  let addr := hostPort.asString
  match lastIdxOf ':' hostPort with
  | none => .error (.addrError addr "missing port in address")
  | some i =>
    if hostPort.headD ' ' = '[' then
      match hostPort.findIdx? (fun ch => ch == ']') with
      | none => .error (.addrError addr "missing \x27]\x27 in address")
      | some endIdx =>
        if endIdx + 1 = hostPort.length then
          .error (.addrError addr "missing port in address")
        else if endIdx + 1 = i then
          if (hostPort.drop 1).contains '[' then
            .error (.addrError addr "unexpected \x27[\x27 in address")
          else if (hostPort.drop (endIdx + 1)).contains ']' then
            .error (.addrError addr "unexpected \x27]\x27 in address")
          else .ok ((hostPort.drop 1).take (endIdx - 1), hostPort.drop (i + 1))
        else if hostPort.getD (endIdx + 1) ' ' = ':' then
          .error (.addrError addr "too many colons in address")
        else .error (.addrError addr "missing port in address")
    else
      if (hostPort.take i).contains ':' then
        .error (.addrError addr "too many colons in address")
      else if hostPort.contains '[' then
        .error (.addrError addr "unexpected \x27[\x27 in address")
      else if hostPort.contains ']' then
        .error (.addrError addr "unexpected \x27]\x27 in address")
      else .ok (hostPort.take i, hostPort.drop (i + 1))

/-- `NewHost` (source lines 87-135).  `currentUser` models `user.Current`
(`none` = lookup failure), `sshConfig` the `extractedHostSSHConfig` table,
`resolvePath` the external `ResolvePath` collaborator. -/
def NewHost (currentUser : Option String) (sshConfig : String → Option SSHConfigEntry)
    (resolvePath : String → String) (hostStr : String) : Except HostError Host :=
  let cs0 := hostStr.toList
  let cs1 := if cs0.length > 6 && cs0.take 6 == "ssh://".toList then cs0.drop 6 else cs0
  let split : List Char × List Char :=
    match lastIdxOf '@' cs1 with
    | some i => (cs1.take i, cs1.drop (i + 1))
    | none => ([], cs1)
  let userE : Except HostError String :=
    if split.1.isEmpty then
      match currentUser with
      | none => .error .currentUserFailed
      | some u => .ok u
    else .ok split.1.asString
  match userE with
  | .error e => .error e
  | .ok theUser =>
    if split.2.contains '/' then .error .unexpectedSlash
    else
      let portE : Except HostError (List Char × List Char) :=
        if split.2.contains ':' then splitHostPort split.2
        else .ok (split.2, "22".toList)
      match portE with
      | .error e => .error e
      | .ok (addrCs, portCs) =>
        match sshConfig addrCs.asString with
        | some conf =>
          .ok { User := conf.User, IdentityFile := resolvePath conf.IdentityFile,
                Address := conf.HostName, Port := toString conf.Port,
                KnownAs := conf.Host.headD "", Bastion := conf.ProxyJump }
        | none =>
          .ok { User := theUser, Address := addrCs.asString, Port := portCs.asString }

/-!
Environment chain resolution (`EnvList.ResolveValues`, source lines
318-342).  The `bash -c` subprocess is an oracle `sh`; the middle component
of the result records every script handed to it, in execution order.
-/

/-- The loop body of `ResolveValues`: `exports` is the accumulated export
string.  On subprocess failure the remaining entries keep their raw values
and the error is wrapped with the offending key
(`errors.Wrapf(err, "resolving env var %v failed", v.Key)`); the `os.Getwd`
call of the source only sets the subprocess working directory and cannot
affect the captured output, so it is not modelled. -/
def resolveLoop (sh : String → Option String) (exports : String) :
    List EnvVar → List EnvVar × List String × Option String
  | [] => ([], [], none)
  | v :: rest =>
    let exports' := exports ++ v.AsExport
    let script := exports' ++ "echo -n " ++ v.Value ++ ";"
    match sh script with
    | none => (v :: rest, [script], some ("resolving env var " ++ v.Key ++ " failed"))
    | some out =>
      let r := resolveLoop sh exports' rest
      ({ v with Value := out } :: r.1, script :: r.2.1, r.2.2)

/-- `EnvList.ResolveValues`, instrumented: returns the updated list, the
scripts executed, and the error (`none` on success). -/
def EnvList.ResolveValuesRun (sh : String → Option String) (e : EnvList) :
    EnvList × List String × Option String :=
  resolveLoop sh "" e

/-- `EnvList.ResolveValues` as the source exposes it: the updated list and
the error. -/
def EnvList.ResolveValues (sh : String → Option String) (e : EnvList) :
    EnvList × Option String :=
  ((EnvList.ResolveValuesRun sh e).1, (EnvList.ResolveValuesRun sh e).2.2)

/-- Concatenated export statements of a list of entries, from their current
(raw) values. -/
def exportsOf : List EnvVar → String
  | [] => ""
  | v :: rest => v.AsExport ++ exportsOf rest

/-- The script the claim predicts for entry `i`: exports of entries
`0..i` built from raw values, then `echo -n` of entry `i`'s raw value. -/
def scriptFor (e : List EnvVar) (i : Nat) : String :=
  exportsOf (e.take (i + 1)) ++ "echo -n " ++
    ((e.drop i).headD { Key := "", Value := "" }).Value ++ ";"

/-- Replace an entry's value by a captured output. -/
def substOut (v : EnvVar) (o : String) : EnvVar :=
  { v with Value := o }

/-!
Inventory expander (`Network.ParseInventory`, source lines 437-471).
-/

/-- Models Go `unicode.IsSpace` (the White_Space property). -/
def goIsSpace (c : Char) : Bool :=
  let n := c.toNat
  (9 ≤ n && n ≤ 13) || n = 32 || n = 0x85 || n = 0xa0 || n = 0x1680 ||
  (0x2000 ≤ n && n ≤ 0x200a) || n = 0x2028 || n = 0x2029 || n = 0x202f ||
  n = 0x205f || n = 0x3000

/-- Models Go `strings.TrimSpace`. -/
def trimSpace (cs : List Char) : List Char :=
  ((cs.dropWhile goIsSpace).reverse.dropWhile goIsSpace).reverse

/-- Models one `buf.ReadString('\n')` call on a `bytes.Buffer`: `some (line,
rest)` returns the data up to and including the delimiter; `none` is the
`io.EOF` outcome, in which the remaining (unterminated) data is returned
together with the EOF error — and the source's loop then discards it. -/
def breakLine : List Char → Option (List Char × List Char)
  | [] => none
  | c :: rest =>
    if c = '\n' then some ([c], rest)
    else
      match breakLine rest with
      | none => none
      | some (line, rem) => some (c :: line, rem)

/-- Fuelled splitting of a buffer into newline-terminated lines; a final
chunk with no terminating newline is dropped (the `io.EOF` break of the
source). -/
def linesTermAux : Nat → List Char → List (List Char)
  | 0, _ => []
  | fuel + 1, cs =>
    match breakLine cs with
    | none => []
    | some (line, rem) => line :: linesTermAux fuel rem

/-- All newline-terminated lines of a buffer, in order. -/
def linesTerminated (cs : List Char) : List (List Char) :=
  linesTermAux (cs.length + 1) cs

/-- The line loop of `ParseInventory`: trim each line, skip empties and
lines whose first character is `#`, build an address-only `Host` from every
other line. -/
def invHosts : List (List Char) → List Host
  | [] => []
  | line :: rest =>
    let host := trimSpace line
    if host.isEmpty || host.take 1 == ['#'] then invHosts rest
    else { Address := host.asString } :: invHosts rest

/-- `Network.ParseInventory`: `runCmd` models the `/bin/sh -c` subprocess,
taking the inventory command and the extra environment entries appended to
`os.Environ()` (the group's `Env.Slice()`); `none` models a subprocess
failure, surfaced as-is (`.error ()`). -/
def Network.ParseInventory (runCmd : String → List String → Option String)
    (n : Network) : Except Unit (List Host) :=
  if n.Inventory = "" then .ok []
  else
    match runCmd n.Inventory (EnvList.Slice n.Env) with
    | none => .error ()
    | some out => .ok (invHosts (linesTerminated out.toList))

/-!
A small model of the external `bash` subprocess, for the scripts
`ResolveValues` emits: a run of `export KEY="VALUE";` statements followed by
one `echo -n ARG;`.  Occurrences of `$NAME` are expanded from the
environment built left to right; everything else is echoed verbatim.
-/

/-- Characters bash treats as part of a `$NAME` variable reference. -/
def varNameChar (c : Char) : Bool :=
  c.isAlphanum || c == '_'

/-- Fuelled `$NAME` expansion against an environment. -/
def expandVarsAux (env : List (String × String)) : Nat → List Char → List Char
  | 0, _ => []
  | _, [] => []
  | fuel + 1, c :: rest =>
    if c = '$' then
      let name := rest.takeWhile varNameChar
      let rest1 := rest.dropWhile varNameChar
      (match env.find? (fun p => p.1 == name.asString) with
       | some p => p.2.toList
       | none => []) ++ expandVarsAux env fuel rest1
    else c :: expandVarsAux env fuel rest

/-- `$NAME` expansion against an environment (unset names expand empty). -/
def expandVars (env : List (String × String)) (cs : List Char) : List Char :=
  expandVarsAux env cs.length cs

/-- The characters strictly before the first occurrence of `c`, and those
strictly after it; `none` when `c` does not occur. -/
def takeUntil (c : Char) : List Char → Option (List Char × List Char)
  | [] => none
  | x :: rest =>
    if x = c then some ([], rest)
    else
      match takeUntil c rest with
      | none => none
      | some (a, b) => some (x :: a, b)

/-- Fuelled parser for the leading run of `export KEY="VALUE";` statements;
each value is expanded against the environment built so far, as bash does at
the moment the export executes. -/
def parseExportsAux : Nat → List Char → List (String × String) →
    Option (List (String × String) × List Char)
  | 0, _, _ => none
  | fuel + 1, cs, env =>
    if cs.take 7 == "export ".toList then
      match takeUntil '=' (cs.drop 7) with
      | none => none
      | some (name, rest1) =>
        match rest1 with
        | '"' :: rest2 =>
          (match takeUntil '"' rest2 with
           | none => none
           | some (rawVal, rest3) =>
             match rest3 with
             | ';' :: rest4 =>
               parseExportsAux fuel rest4
                 (env ++ [(name.asString, (expandVars env rawVal).asString)])
             | _ => none)
        | _ => none
    else some (env, cs)

/-- The bash model: run the exports, then capture the output of
`echo -n ARG;` with `ARG` expanded. -/
def bashModel (script : String) : Option String :=
  let cs := script.toList
  match parseExportsAux (cs.length + 1) cs [] with
  | none => none
  | some (env, rest) =>
    if rest.take 8 == "echo -n ".toList then
      match takeUntil ';' (rest.drop 8) with
      | none => none
      | some (arg, rest2) =>
        if rest2.isEmpty then some ((expandVars env arg).asString) else none
    else none

/-!
Claim-facing predicates and concrete example documents.
-/

/-- No command carries both the deprecated `RunOnce` flag and its
replacement `Once` simultaneously. -/
def noBothFlags (c : Supfile) : Bool :=
  c.Commands.cmds.all (fun p => !(p.2.RunOnce && p.2.Once))

/-- Number of commands whose deprecated `run_once` flag is set. -/
def countRunOnce (conf : Supfile) : Nat :=
  (conf.Commands.cmds.filter (fun p => p.2.RunOnce)).length

/-- A document trips a `case "0.2"` rule: some command uses `once`, `local`
or a non-zero `serial`, or some network declares an inventory command. -/
def offends02 (conf : Supfile) : Bool :=
  conf.Commands.cmds.any (fun p => p.2.Once || p.2.Local || p.2.Serial != 0) ||
  conf.Networks.nets.any (fun p => p.2.Inventory != "")

/-- The version rules that run strictly before the `case "0.3"` migration
all pass (for the document's own declared version, after defaulting). -/
def earlierRulesPass (conf0 : Supfile) : Bool :=
  let conf := if conf0.Version = "" then { conf0 with Version := "0.1" } else conf0
  if conf.Version = "0.1" then (check01 conf).isNone && (check02 conf).isNone
  else if conf.Version = "0.2" then (check02 conf).isNone
  else true

/-- An SSH-config table with no entries (no alias ever matches). -/
def emptySSHConfig : String → Option SSHConfigEntry :=
  fun _ => none

/-- A version-0.3 document with one command still using `run_once`. -/
def exC1 : Supfile :=
  { Version := "0.3",
    Commands := { Names := ["x"], cmds := [("x", { RunOnce := true })] } }

/-- A version-0.3 document whose single command was already migrated — input
for the amended-claim witness. -/
def exC1w : Supfile :=
  { Version := "0.3",
    Commands := { Names := ["w"], cmds := [("w", { RunOnce := true })] } }

/-- A version-0.3 document with two commands still using `run_once`. -/
def exC2 : Supfile :=
  { Version := "0.3",
    Commands := { Names := ["x", "y"],
                  cmds := [("x", { RunOnce := true }), ("y", { RunOnce := true })] } }

/-- A version-0.3 document with one `run_once` command — witness input for
the amended migration/warning claim. -/
def exC2w : Supfile :=
  { Version := "0.3",
    Commands := { Names := ["v"], cmds := [("v", { RunOnce := true })] } }

/-- A version-0.2 document with a command declaring `once: true`. -/
def exC4w : Supfile :=
  { Version := "0.2",
    Commands := { Names := ["deploy"], cmds := [("deploy", { Once := true })] } }

/-- A document with an unknown version string. -/
def exC7w : Supfile :=
  { Version := "9.9" }

/-- A network declaring an inventory command. -/
def exInvNet : Network :=
  { Inventory := "cat hosts.txt" }

/-- A subprocess oracle returning a fixed inventory output. -/
def invOracle (out : String) : String → List String → Option String :=
  fun _ _ => some out

/-!
Helper lemmas.
-/

/-- A successful `findSome?` is produced by some element of the list. -/
theorem findSome?_exists {α β : Type} {l : List α} {f : α → Option β} {e : β}
    (h : l.findSome? f = some e) : ∃ x ∈ l, f x = some e := by
  induction l with
  | nil => simp at h
  | cons a as ih =>
    cases hfa : f a with
    | some v =>
      simp [List.findSome?_cons, hfa] at h
      exact ⟨a, List.mem_cons_self a as, by rw [hfa, h]⟩
    | none =>
      simp only [List.findSome?_cons, hfa] at h
      obtain ⟨x, hx, hfx⟩ := ih h
      exact ⟨x, List.mem_cons_of_mem a hx, hfx⟩

/-- Every error `check01` can produce is of the upgrade-required kind. -/
theorem check01_isMustUpdate {conf : Supfile} {e : SupError}
    (h : check01 conf = some e) : e.isMustUpdate = true := by
  obtain ⟨p, _, hp⟩ := findSome?_exists h
  cases hro : p.2.RunOnce <;> simp [hro] at hp
  rw [← hp]
  rfl

/-- Every error `check02cmd` can produce is of the upgrade-required kind. -/
theorem check02cmd_isMustUpdate {v : String} {c : Command} {e : SupError}
    (h : check02cmd v c = some e) : e.isMustUpdate = true := by
  unfold check02cmd at h
  repeat' split at h
  all_goals simp_all [SupError.isMustUpdate]
  all_goals rw [← h]

/-- Every error `check02` can produce is of the upgrade-required kind. -/
theorem check02_isMustUpdate {conf : Supfile} {e : SupError}
    (h : check02 conf = some e) : e.isMustUpdate = true := by
  unfold check02 at h
  cases hc : conf.Commands.cmds.findSome? (fun p => check02cmd conf.Version p.2) with
  | some e2 =>
    rw [hc] at h
    simp at h
    obtain ⟨p, _, hp⟩ := findSome?_exists hc
    rw [← h]
    exact check02cmd_isMustUpdate hp
  | none =>
    rw [hc] at h
    obtain ⟨p, _, hp⟩ := findSome?_exists h
    unfold check02net at hp
    cases hinv : (p.2.Inventory != "") <;> simp [hinv] at hp
    rw [← hp]
    rfl

/-- If `check02` finds nothing, no 0.2 rule is tripped. -/
theorem offends02_eq_false_of_check02 {conf : Supfile} (h : check02 conf = none) :
    offends02 conf = false := by
  unfold check02 at h
  cases hc : conf.Commands.cmds.findSome? (fun p => check02cmd conf.Version p.2) with
  | some e => rw [hc] at h; simp at h
  | none =>
    rw [hc] at h
    have hcmds := List.findSome?_eq_none_iff.mp hc
    have hnets := List.findSome?_eq_none_iff.mp h
    unfold offends02
    simp only [Bool.or_eq_false_iff, List.any_eq_false]
    constructor
    · intro p hp
      have hpc := hcmds p hp
      cases h1 : p.2.Once <;> cases h2 : p.2.Local <;> cases h3 : (p.2.Serial != 0) <;>
        simp_all [check02cmd]
    · intro p hp
      have hpn := hnets p hp
      cases h1 : (p.2.Inventory != "") <;> simp_all [check02net]

/-- `NewSupfile` on a document with a non-empty version string. -/
theorem NewSupfile_nonempty {conf : Supfile} (h : ¬conf.Version = "") :
    NewSupfile conf = gateVersion conf := by
  simp [NewSupfile, h]

/-- `NewSupfile` on a document with no declared version: `"0.1"` is the
implicit default. -/
theorem NewSupfile_empty {conf : Supfile} (h : conf.Version = "") :
    NewSupfile conf = gateVersion { conf with Version := "0.1" } := by
  simp [NewSupfile, h]

/-- The gate at version `0.1` runs the 0.1 check, the 0.2 check and the 0.3
migration. -/
theorem gateVersion_v01 {conf : Supfile} (h : conf.Version = "0.1") :
    gateVersion conf =
      (match check01 conf with
       | some e => .error e
       | none =>
         match check02 conf with
         | some e => .error e
         | none => .ok (gate03 conf)) := by
  simp [gateVersion, h]

/-- The gate at version `0.2` runs the 0.2 check and the 0.3 migration. -/
theorem gateVersion_v02 {conf : Supfile} (h : conf.Version = "0.2") :
    gateVersion conf =
      (match check02 conf with
       | some e => .error e
       | none => .ok (gate03 conf)) := by
  simp [gateVersion, h]

/-- The gate at version `0.3` runs only the migration. -/
theorem gateVersion_v03 {conf : Supfile} (h : conf.Version = "0.3") :
    gateVersion conf = .ok (gate03 conf) := by
  simp [gateVersion, h]

/-- After migration, no command has the deprecated flag without its
replacement. -/
theorem migrate_all_flag (cs : Commands) :
    (Commands.migrate cs).cmds.all (fun p => !p.2.RunOnce || p.2.Once) = true := by
  apply List.all_eq_true.mpr
  intro p hp
  unfold Commands.migrate at hp
  obtain ⟨q, _, rfl⟩ := List.mem_map.mp hp
  cases hro : q.2.RunOnce <;> simp [migrateCmd, hro]

/-- Migration commutes with map lookup: the entry found under a key after
migration is the migrated entry found before. -/
theorem find?_migrate (l : List (String × Command)) (key : String) :
    (l.map (fun p => (p.1, migrateCmd p.2))).find? (fun p => p.1 == key) =
      (l.find? (fun p => p.1 == key)).map (fun p => (p.1, migrateCmd p.2)) := by
  induction l with
  | nil => rfl
  | cons q rest ih =>
    by_cases hk : (q.1 == key) = true
    · simp [List.find?_cons_of_pos, hk]
    · rw [List.map_cons, List.find?_cons_of_neg _ (by simpa using hk),
        List.find?_cons_of_neg _ (by simpa using hk), ih]

/-- `Get` after migration returns the migrated command. -/
theorem Get_migrate (cs : Commands) (key : String) :
    (Commands.migrate cs).Get key = (cs.Get key).map migrateCmd := by
  unfold Commands.Get Commands.migrate
  rw [find?_migrate]
  cases cs.cmds.find? (fun p => p.1 == key) <;> rfl

/-- The predicted script for the head entry. -/
theorem scriptFor_zero (v : EnvVar) (rest : List EnvVar) :
    scriptFor (v :: rest) 0 = v.AsExport ++ "echo -n " ++ v.Value ++ ";" := by
  show (v.AsExport ++ "") ++ "echo -n " ++ v.Value ++ ";" = _
  rw [String.append_empty]

/-- The predicted script for a later entry: the head's export statement is
prepended. -/
theorem scriptFor_succ (v : EnvVar) (rest : List EnvVar) (i : Nat) :
    scriptFor (v :: rest) (i + 1) = v.AsExport ++ scriptFor rest i := by
  show (v.AsExport ++ exportsOf (rest.take (i + 1))) ++ "echo -n " ++
      ((rest.drop i).headD { Key := "", Value := "" }).Value ++ ";" = _
  simp [scriptFor, String.append_assoc]

/-- Peeling the head entry off the predicted script list. -/
theorem scripts_shift (ex : String) (v : EnvVar) (rest : List EnvVar) (n : Nat) :
    (List.range (n + 1)).map (fun i => ex ++ scriptFor (v :: rest) i) =
      ((ex ++ v.AsExport) ++ "echo -n " ++ v.Value ++ ";") ::
        (List.range n).map (fun i => (ex ++ v.AsExport) ++ scriptFor rest i) := by
  rw [List.range_succ_eq_map, List.map_cons, List.map_map]
  congr 1
  · rw [scriptFor_zero]
    simp [String.append_assoc]
  · apply List.map_congr_left
    intro i _
    simp [Function.comp, Nat.succ_eq_add_one, scriptFor_succ, String.append_assoc]

/-- When the shell succeeds on every predicted script, the loop replaces
each value by the corresponding captured output and runs exactly the
predicted scripts, in order. -/
theorem resolveLoop_ok (sh : String → Option String) (e : List EnvVar) :
    ∀ (ex : String) (outs : List String),
      outs.length = e.length →
      (∀ i, i < e.length → sh (ex ++ scriptFor e i) = outs.get? i) →
      resolveLoop sh ex e =
        (List.zipWith substOut e outs,
         (List.range e.length).map (fun i => ex ++ scriptFor e i), none) := by
  induction e with
  | nil =>
    intro ex outs hlen _
    have h0 : outs = [] := List.length_eq_zero.mp hlen
    subst h0
    rfl
  | cons v rest ih =>
    intro ex outs hlen hsh
    cases outs with
    | nil => simp at hlen
    | cons o outs1 =>
      have h0 : sh ((ex ++ v.AsExport) ++ "echo -n " ++ v.Value ++ ";") = some o := by
        have hx := hsh 0 (Nat.succ_pos _)
        rw [scriptFor_zero] at hx
        simpa [String.append_assoc] using hx
      have hrec := ih (ex ++ v.AsExport) outs1 (by simpa using hlen)
        (by
          intro i hi
          have hx := hsh (i + 1) (Nat.succ_lt_succ hi)
          rw [scriptFor_succ] at hx
          simpa [String.append_assoc] using hx)
      simp only [resolveLoop, h0, hrec]
      rw [List.length_cons, scripts_shift]
      rfl

/-- When the shell fails on the predicted script of entry `i` after
succeeding on entries `0..i-1`, the loop stops there: the prefix is
replaced, the suffix keeps its raw values, scripts `0..i` were run, and the
error carries entry `i`'s key. -/
theorem resolveLoop_fail (sh : String → Option String) (e : List EnvVar) :
    ∀ (ex : String) (i : Nat) (outs : List String),
      outs.length = i → i < e.length →
      (∀ j, j < i → sh (ex ++ scriptFor e j) = outs.get? j) →
      sh (ex ++ scriptFor e i) = none →
      resolveLoop sh ex e =
        (List.zipWith substOut (e.take i) outs ++ e.drop i,
         (List.range (i + 1)).map (fun j => ex ++ scriptFor e j),
         some ("resolving env var " ++
           ((e.drop i).headD { Key := "", Value := "" }).Key ++ " failed")) := by
  induction e with
  | nil =>
    intro ex i outs _ hi _ _
    exact absurd hi (by simp)
  | cons v rest ih =>
    intro ex i outs hlen hi hok hfail
    cases i with
    | zero =>
      have h0 : outs = [] := List.length_eq_zero.mp hlen
      subst h0
      have hf : sh ((ex ++ v.AsExport) ++ "echo -n " ++ v.Value ++ ";") = none := by
        rw [scriptFor_zero] at hfail
        simpa [String.append_assoc] using hfail
      simp only [resolveLoop, hf]
      rw [scripts_shift]
      rfl
    | succ i1 =>
      cases outs with
      | nil => simp at hlen
      | cons o outs1 =>
        have h0 : sh ((ex ++ v.AsExport) ++ "echo -n " ++ v.Value ++ ";") = some o := by
          have hx := hok 0 (Nat.succ_pos _)
          rw [scriptFor_zero] at hx
          simpa [String.append_assoc] using hx
        have hrec := ih (ex ++ v.AsExport) i1 outs1 (by simpa using hlen)
          (by simpa using hi)
          (by
            intro j hj
            have hx := hok (j + 1) (Nat.succ_lt_succ hj)
            rw [scriptFor_succ] at hx
            simpa [String.append_assoc] using hx)
          (by
            rw [scriptFor_succ] at hfail
            simpa [String.append_assoc] using hfail)
        simp only [resolveLoop, h0, hrec]
        rw [scripts_shift]
        rfl

/-- The inventory line loop is the trim/filter/map pipeline the claim
describes. -/
theorem invHosts_spec (lines : List (List Char)) :
    invHosts lines = (lines.map trimSpace).filterMap
      (fun l => if l.isEmpty || l.take 1 == ['#'] then none
                else some { Address := l.asString }) := by
  induction lines with
  | nil => rfl
  | cons line rest ih =>
    simp only [invHosts, List.map_cons, List.filterMap_cons]
    by_cases h : ((trimSpace line).isEmpty || (trimSpace line).take 1 == ['#']) = true
    · simp [h, ih]
    · simp only [Bool.not_eq_true] at h
      simp [h, ih]

/-- A buffer with no newline yields no `ReadString` line: the read ends in
`io.EOF` at once. -/
theorem breakLine_none {cs : List Char} (h : cs.contains '\n' = false) :
    breakLine cs = none := by
  induction cs with
  | nil => rfl
  | cons c rest ih =>
    simp only [List.contains_cons, Bool.or_eq_false_iff] at h
    have h1 : ¬c = '\n' := by
      intro hc
      subst hc
      simp at h
    rw [breakLine, if_neg h1, ih h.2]

/-- A buffer with no newline at all produces no lines. -/
theorem linesTerminated_no_newline {cs : List Char} (h : cs.contains '\n' = false) :
    linesTerminated cs = [] := by
  simp [linesTerminated, linesTermAux, breakLine_none h]

/-- A success flowing out of `gate03` carries the migrated command map. -/
theorem ok_through_gate03 {c : Supfile} {ws : List String} {confB : Supfile}
    (h : Except.ok (ε := SupError) (gate03 confB) = Except.ok (c, ws)) :
    c.Commands = Commands.migrate confB.Commands := by
  injection h with h1
  have hc : c = (gate03 confB).1 := by rw [h1]
  rw [hc]
  rfl

/-- Common core of the migration claim: a success through the 0.3 step on a
document sharing `conf`'s commands migrates every `run_once` command and
warns at most once. -/
theorem migration_core (conf confB : Supfile)
    (hcb : confB.Commands = conf.Commands)
    (h : NewSupfile conf = .ok (gate03 confB)) :
    ∃ c ws, NewSupfile conf = .ok (c, ws) ∧
      (∀ key cmd, conf.Commands.Get key = some cmd → cmd.RunOnce = true →
        c.Commands.Get key = some { cmd with Once := true }) ∧
      ws.length = (if anyRunOnce conf then 1 else 0) := by
  refine ⟨(gate03 confB).1, (gate03 confB).2, by rw [h], ?_, ?_⟩
  · intro key cmd hget hro
    have hc : (gate03 confB).1.Commands = Commands.migrate conf.Commands := by
      simp [gate03, hcb]
    rw [hc, Get_migrate, hget]
    simp [migrateCmd, hro]
  · have ha : anyRunOnce confB = anyRunOnce conf := by
      simp [anyRunOnce, hcb]
    simp only [gate03, ha]
    cases h2 : anyRunOnce conf <;> simp

/-- At the 0.1/0.2 gates, a document tripping a 0.2 rule draws an
upgrade-required error. -/
theorem gate_mustUpdate_of_offends (conf : Supfile) (hoff : offends02 conf = true)
    (hv : conf.Version = "0.1" ∨ conf.Version = "0.2") :
    ∃ e, gateVersion conf = .error e ∧ e.isMustUpdate = true := by
  rcases hv with hveq | hveq
  · rw [gateVersion_v01 hveq]
    cases hc1 : check01 conf with
    | some e =>
      refine ⟨e, ?_, check01_isMustUpdate hc1⟩
      simp [hc1]
    | none =>
      cases hc2 : check02 conf with
      | some e =>
        refine ⟨e, ?_, check02_isMustUpdate hc2⟩
        simp [hc1, hc2]
      | none =>
        rw [offends02_eq_false_of_check02 hc2] at hoff
        exact Bool.noConfusion hoff
  · rw [gateVersion_v02 hveq]
    cases hc2 : check02 conf with
    | some e =>
      refine ⟨e, ?_, check02_isMustUpdate hc2⟩
      simp [hc2]
    | none =>
      rw [offends02_eq_false_of_check02 hc2] at hoff
      exact Bool.noConfusion hoff

/-- C1 (counterexample): a version-0.3 document with a `run_once` command is
accepted, and the resulting Supfile has a command with both the deprecated
flag and its replacement set — the migration sets `Once` without clearing
`RunOnce`. -/
theorem claimC1_counterexample :
    (NewSupfile exC1).map (fun r => noBothFlags r.1) = .ok false := by rfl

/-- C1 (amended): for documents accepted at declared version at most 0.3
(including the implicit default), every command of the resulting Supfile
that carries the deprecated `RunOnce` flag also carries `Once`; both flags
may be observed simultaneously. -/
theorem claimC1 (conf c : Supfile) (ws : List String)
    (hv : conf.Version = "" ∨ conf.Version = "0.1" ∨ conf.Version = "0.2" ∨
      conf.Version = "0.3")
    (h : NewSupfile conf = .ok (c, ws)) :
    c.Commands.cmds.all (fun p => !p.2.RunOnce || p.2.Once) = true := by
  have key : ∃ confB : Supfile, c.Commands = Commands.migrate confB.Commands := by
    rcases hv with hveq | hveq | hveq | hveq
    · rw [NewSupfile_empty hveq, gateVersion_v01 rfl] at h
      cases hc1 : check01 { conf with Version := "0.1" } with
      | some e => simp [hc1] at h
      | none =>
        cases hc2 : check02 { conf with Version := "0.1" } with
        | some e => simp [hc1, hc2] at h
        | none =>
          simp only [hc1, hc2] at h
          exact ⟨{ conf with Version := "0.1" }, ok_through_gate03 h⟩
    · rw [NewSupfile_nonempty (by simp [hveq]), gateVersion_v01 hveq] at h
      cases hc1 : check01 conf with
      | some e => simp [hc1] at h
      | none =>
        cases hc2 : check02 conf with
        | some e => simp [hc1, hc2] at h
        | none =>
          simp only [hc1, hc2] at h
          exact ⟨conf, ok_through_gate03 h⟩
    · rw [NewSupfile_nonempty (by simp [hveq]), gateVersion_v02 hveq] at h
      cases hc2 : check02 conf with
      | some e => simp [hc2] at h
      | none =>
        simp only [hc2] at h
        exact ⟨conf, ok_through_gate03 h⟩
    · rw [NewSupfile_nonempty (by simp [hveq]), gateVersion_v03 hveq] at h
      exact ⟨conf, ok_through_gate03 h⟩
  obtain ⟨confB, hkey⟩ := key
  rw [hkey]
  exact migrate_all_flag _

/-- Witness for the amended C1 at a concrete version-0.3 document. -/
theorem claimC1_witness :
    ∃ c ws, NewSupfile exC1w = .ok (c, ws) ∧
      c.Commands.cmds.all (fun p => !p.2.RunOnce || p.2.Once) = true := by
  refine ⟨(gate03 exC1w).1, (gate03 exC1w).2, by rfl, ?_⟩
  exact claimC1 exC1w (gate03 exC1w).1 (gate03 exC1w).2 (by decide) (by rfl)

/-- C2 (counterexample): a version-0.3 document with two `run_once` commands
emits one warning, not two — the source overwrites a single `warning`
variable in the loop and prints it once after the loop. -/
theorem claimC2_counterexample :
    countRunOnce exC2 = 2 ∧ (NewSupfile exC2).map (fun r => r.2.length) = .ok 1 :=
  ⟨by rfl, by rfl⟩

/-- C2 (amended): at declared version at most 0.3 (including the implicit
default), when the earlier version rules pass, loading succeeds, every
command whose deprecated `run_once` flag is true has its `once` flag set in
place, and exactly one warning is emitted when at least one command was
migrated (zero otherwise) — not one warning per offending command. -/
theorem claimC2 (conf : Supfile)
    (hv : conf.Version = "" ∨ conf.Version = "0.1" ∨ conf.Version = "0.2" ∨
      conf.Version = "0.3")
    (hp : earlierRulesPass conf = true) :
    ∃ c ws, NewSupfile conf = .ok (c, ws) ∧
      (∀ key cmd, conf.Commands.Get key = some cmd → cmd.RunOnce = true →
        c.Commands.Get key = some { cmd with Once := true }) ∧
      ws.length = (if anyRunOnce conf then 1 else 0) := by
  rcases hv with hveq | hveq | hveq | hveq
  · simp [earlierRulesPass, hveq] at hp
    apply migration_core conf { conf with Version := "0.1" } rfl
    rw [NewSupfile_empty hveq, gateVersion_v01 rfl]
    simp [hp.1, hp.2]
  · simp [earlierRulesPass, hveq] at hp
    apply migration_core conf conf rfl
    rw [NewSupfile_nonempty (by simp [hveq]), gateVersion_v01 hveq]
    simp [hp.1, hp.2]
  · simp [earlierRulesPass, hveq] at hp
    apply migration_core conf conf rfl
    rw [NewSupfile_nonempty (by simp [hveq]), gateVersion_v02 hveq]
    simp [hp]
  · apply migration_core conf conf rfl
    rw [NewSupfile_nonempty (by simp [hveq]), gateVersion_v03 hveq]

/-- Witness for the amended C2 at a concrete version-0.3 document with one
`run_once` command. -/
theorem claimC2_witness :
    ∃ c ws, NewSupfile exC2w = .ok (c, ws) ∧
      (∀ key cmd, exC2w.Commands.Get key = some cmd → cmd.RunOnce = true →
        c.Commands.Get key = some { cmd with Once := true }) ∧
      ws.length = (if anyRunOnce exC2w then 1 else 0) :=
  claimC2 exC2w (by decide) (by decide)

/-- C4: at declared version at most 0.2 (including the implicit default), a
document with a command using `once`, `local` or a non-zero `serial`, or a
network declaring an inventory command, fails with an upgrade-required
error; the same document declared at version 0.4 is accepted unchanged. -/
theorem claimC4 (conf : Supfile)
    (hv : conf.Version = "" ∨ conf.Version = "0.1" ∨ conf.Version = "0.2")
    (hoff : offends02 conf = true) :
    (∃ e, NewSupfile conf = .error e ∧ e.isMustUpdate = true) ∧
    NewSupfile { conf with Version := "0.4" } =
      .ok ({ conf with Version := "0.4" }, []) := by
  constructor
  · rcases hv with hveq | hveq | hveq
    · rw [NewSupfile_empty hveq]
      exact gate_mustUpdate_of_offends { conf with Version := "0.1" } hoff (Or.inl rfl)
    · rw [NewSupfile_nonempty (by simp [hveq])]
      exact gate_mustUpdate_of_offends conf hoff (Or.inl hveq)
    · rw [NewSupfile_nonempty (by simp [hveq])]
      exact gate_mustUpdate_of_offends conf hoff (Or.inr hveq)
  · simp [NewSupfile, gateVersion]

/-- Witness for C4 at a concrete version-0.2 document with `once: true`. -/
theorem claimC4_witness :
    (∃ e, NewSupfile exC4w = .error e ∧ e.isMustUpdate = true) ∧
    NewSupfile { exC4w with Version := "0.4" } =
      .ok ({ exC4w with Version := "0.4" }, []) :=
  claimC4 exC4w (by decide) (by decide)

/-- C7: any version string outside the six accepted ones is rejected with an
unsupported-version error, a kind distinct from the upgrade-required
kind. -/
theorem claimC7 (conf : Supfile)
    (hv : ¬conf.Version ∈ (["", "0.1", "0.2", "0.3", "0.4", "0.5"] : List String)) :
    NewSupfile conf =
      .error (.unsupportedVersion ("unsupported Supfile version " ++ conf.Version)) ∧
    ∀ m1 m2, SupError.unsupportedVersion m1 ≠ SupError.mustUpdate m2 := by
  simp only [List.mem_cons, List.not_mem_nil, or_false, not_or] at hv
  obtain ⟨h0, h1, h2, h3, h4, h5⟩ := hv
  refine ⟨?_, fun m1 m2 hx => SupError.noConfusion hx⟩
  simp [NewSupfile, gateVersion, h0, h1, h2, h3, h4, h5]

/-- Witness for C7 at `version: "9.9"`. -/
theorem claimC7_witness :
    NewSupfile exC7w =
      .error (.unsupportedVersion ("unsupported Supfile version " ++ exC7w.Version)) ∧
    ∀ m1 m2, SupError.unsupportedVersion m1 ≠ SupError.mustUpdate m2 :=
  claimC7 exC7w (by decide)

/-- C3: the script executed for entry `i` of `ResolveValues` concatenates
the export statements of entries `0..i` built from their pre-resolution raw
values, then `echo -n` of entry `i`'s raw value; entry `i`'s value is
replaced by the captured stdout.  Instantiated on the `[FOO=bar,
BAZ=$FOO-baz]` chain against the bash model, resolution yields `FOO = "bar"`
and `BAZ = "bar-baz"`. -/
theorem claimC3 :
    (∀ (sh : String → Option String) (e : EnvList) (outs : List String),
       outs.length = e.length →
       (∀ i, i < e.length → sh (scriptFor e i) = outs.get? i) →
       EnvList.ResolveValuesRun sh e =
         (List.zipWith substOut e outs,
          (List.range e.length).map (scriptFor e), none)) ∧
    EnvList.ResolveValuesRun bashModel
        [{ Key := "FOO", Value := "bar" }, { Key := "BAZ", Value := "$FOO-baz" }] =
      ([{ Key := "FOO", Value := "bar" }, { Key := "BAZ", Value := "bar-baz" }],
       ["export FOO=\"bar\";echo -n bar;",
        "export FOO=\"bar\";export BAZ=\"$FOO-baz\";echo -n $FOO-baz;"], none) := by
  constructor
  · intro sh e outs hlen hsh
    have h := resolveLoop_ok sh e "" outs hlen (by
      intro i hi
      rw [String.empty_append]
      exact hsh i hi)
    rw [EnvList.ResolveValuesRun, h]
    have hm : (List.range e.length).map (fun i => "" ++ scriptFor e i) =
        (List.range e.length).map (scriptFor e) :=
      List.map_congr_left (fun i _ => String.empty_append _)
    rw [hm]
  · rfl

/-- Witness for C3's general part at a one-entry chain and a constant
oracle. -/
theorem claimC3_witness :
    EnvList.ResolveValuesRun (fun _ => some "X") [{ Key := "A", Value := "a" }] =
      (List.zipWith substOut [{ Key := "A", Value := "a" }] ["X"],
       (List.range 1).map (scriptFor [{ Key := "A", Value := "a" }]), none) :=
  claimC3.1 (fun _ => some "X") [{ Key := "A", Value := "a" }] ["X"] rfl
    (fun i hi => by
      have h0 : i = 0 := Nat.lt_one_iff.mp hi
      subst h0
      rfl)

/-- `findIdx?` misses on a list where the predicate never holds, whatever
the start index. -/
theorem findIdx?_none {p : Char → Bool} (l : List Char)
    (h : ∀ x ∈ l, p x = false) : ∀ i : Nat, List.findIdx? p l i = none := by
  induction l with
  | nil => intro i; simp
  | cons a l ih =>
    intro i
    have ha : p a = false := h a (List.mem_cons_self a l)
    rw [List.findIdx?, ha]
    simp only [Bool.false_eq_true, if_false]
    exact ih (fun x hx => h x (List.mem_cons_of_mem a hx)) (i + 1)

/-- `findIdx?` skips a prefix where the predicate never holds, shifting the
start index past it. -/
theorem findIdx?_skip {p : Char → Bool} (l1 l2 : List Char)
    (h : ∀ x ∈ l1, p x = false) :
    ∀ i : Nat, List.findIdx? p (l1 ++ l2) i = List.findIdx? p l2 (i + l1.length) := by
  induction l1 with
  | nil => intro i; simp
  | cons a l ih =>
    intro i
    have ha : p a = false := h a (List.mem_cons_self a l)
    rw [List.cons_append, List.findIdx?, ha]
    simp only [Bool.false_eq_true, if_false]
    rw [ih (fun x hx => h x (List.mem_cons_of_mem a hx)) (i + 1)]
    congr 1
    simp [List.length_cons]
    omega

/-- The last occurrence of `c` in `user ++ c :: host` is right after `user`
when `host` is free of `c` — the grammar's last-separator split. -/
theorem lastIdxOf_last_sep (c : Char) (user host : List Char)
    (hat : ¬c ∈ host) :
    lastIdxOf c (user ++ c :: host) = some user.length := by
  have hrev : (user ++ c :: host).reverse = host.reverse ++ c :: user.reverse := by
    simp
  have hnone : ∀ x ∈ host.reverse, (fun ch => ch == c) x = false := by
    intro x hx
    simp only [List.mem_reverse] at hx
    simp only [beq_eq_false_iff_ne, ne_eq]
    intro hxc
    exact hat (hxc ▸ hx)
  unfold lastIdxOf
  rw [hrev, findIdx?_skip _ _ hnone 0, List.findIdx?]
  simp only [beq_self_eq_true, if_true]
  have hl : (user ++ c :: host).length = user.length + host.length + 1 := by
    simp [List.length_append]
    omega
  rw [hl]
  simp only [List.length_reverse]
  congr 1
  omega

/-- A list free of `c` has no last occurrence of `c`. -/
theorem lastIdxOf_none (c : Char) (cs : List Char) (h : ¬c ∈ cs) :
    lastIdxOf c cs = none := by
  unfold lastIdxOf
  rw [findIdx?_none cs.reverse (fun x hx => by
    simp only [beq_eq_false_iff_ne, ne_eq]
    intro hxc
    exact h (hxc ▸ List.mem_reverse.mp hx)) 0]

/-- Master grammar lemma for `NewHost` with a user part: once the scheme
strip leaves `user ++ '@' :: host` with `host` free of at-signs, the user is
the text before the LAST at-sign (the user itself may contain at-signs), a
slash in the remainder is rejected, a colon sends the remainder through the
strict host:port split with its errors propagated, and otherwise the port
defaults to 22. -/
theorem NewHost_user_grammar (u : String) (rp : String → String) (s : String)
    (user host : List Char) (hu : user ≠ []) (hat : '@' ∉ host)
    (hstrip : (if s.toList.length > 6 && s.toList.take 6 == "ssh://".toList
               then s.toList.drop 6 else s.toList) = user ++ '@' :: host) :
    NewHost (some u) emptySSHConfig rp s =
      (if host.contains '/' then .error .unexpectedSlash
       else if host.contains ':' then
         match splitHostPort host with
         | .error e => .error e
         | .ok (a, p) =>
           .ok { User := user.asString, Address := a.asString, Port := p.asString }
       else .ok { User := user.asString, Address := host.asString, Port := "22" }) := by
  have htakeU : (user ++ '@' :: host).take user.length = user := List.take_left' rfl
  have hdropU : (user ++ '@' :: host).drop (user.length + 1) = host := by
    rw [List.append_cons user '@' host]
    exact List.drop_left' (by simp)
  have hue : user.isEmpty = false := by
    cases user with
    | nil => exact absurd rfl hu
    | cons a l => rfl
  simp only [NewHost, hstrip, lastIdxOf_last_sep '@' user host hat, htakeU, hdropU, hue,
    Bool.false_eq_true, if_false]
  by_cases hs : host.contains '/' = true
  · rw [if_pos hs, if_pos hs]
  · rw [if_neg hs, if_neg hs]
    by_cases hc : host.contains ':' = true
    · rw [if_pos hc, if_pos hc]
      cases hsp : splitHostPort host with
      | error e => simp [hsp]
      | ok ap =>
        obtain ⟨a, p⟩ := ap
        simp [hsp, emptySSHConfig]
    · rw [if_neg hc, if_neg hc]
      simp [emptySSHConfig]
      rfl

/-- Converse direction of `List.contains` on a miss. -/
theorem not_mem_of_contains_eq_false {c : Char} {l : List Char}
    (h : l.contains c = false) : ¬c ∈ l := by
  intro hmem
  simp [List.elem_iff] at h
  exact h hmem

/-- Master grammar lemma for `NewHost` with no user part: when the scheme
strip leaves an at-sign-free remainder, the user defaults to the current OS
user and the remainder is processed as in the user case. -/
theorem NewHost_nouser_grammar (u : String) (rp : String → String) (s : String)
    (host : List Char) (hat : '@' ∉ host)
    (hstrip : (if s.toList.length > 6 && s.toList.take 6 == "ssh://".toList
               then s.toList.drop 6 else s.toList) = host) :
    NewHost (some u) emptySSHConfig rp s =
      (if host.contains '/' then .error .unexpectedSlash
       else if host.contains ':' then
         match splitHostPort host with
         | .error e => .error e
         | .ok (a, p) => .ok { User := u, Address := a.asString, Port := p.asString }
       else .ok { User := u, Address := host.asString, Port := "22" }) := by
  simp only [NewHost, hstrip, lastIdxOf_none '@' host hat, List.isEmpty_nil, if_true]
  by_cases hs : host.contains '/' = true
  · rw [if_pos hs, if_pos hs]
  · rw [if_neg hs, if_neg hs]
    by_cases hc : host.contains ':' = true
    · rw [if_pos hc, if_pos hc]
      cases hsp : splitHostPort host with
      | error e => simp [hsp]
      | ok ap =>
        obtain ⟨a, p⟩ := ap
        simp [hsp, emptySSHConfig]
    · rw [if_neg hc, if_neg hc]
      simp [emptySSHConfig]
      rfl

/-- C5: with no matching SSH-config entry, `NewHost` conforms to the
`[ssh://][user@]host[:port]` grammar, universally: a leading scheme is
stripped; the user is the text before the LAST at-sign (the user part may
itself contain at-signs) and defaults to the current OS user when absent; a
slash in the address is rejected; an address with a colon goes through the
strict host:port split with any malformed-port error propagated, and the
port defaults to 22 otherwise.  The spec's three examples close the
statement. -/
theorem claimC5 :
    (∀ (u : String) (rp : String → String) (user host : List Char),
       user ≠ [] → host.contains '@' = false →
       NewHost (some u) emptySSHConfig rp
           ("ssh://".toList ++ user ++ '@' :: host).asString =
         (if host.contains '/' then .error .unexpectedSlash
          else if host.contains ':' then
            match splitHostPort host with
            | .error e => .error e
            | .ok (a, p) =>
              .ok { User := user.asString, Address := a.asString, Port := p.asString }
          else .ok { User := user.asString, Address := host.asString, Port := "22" })) ∧
    (∀ (u : String) (rp : String → String) (user host : List Char),
       user ≠ [] → host.contains '@' = false →
       (user ++ '@' :: host).take 6 ≠ "ssh://".toList →
       NewHost (some u) emptySSHConfig rp (user ++ '@' :: host).asString =
         (if host.contains '/' then .error .unexpectedSlash
          else if host.contains ':' then
            match splitHostPort host with
            | .error e => .error e
            | .ok (a, p) =>
              .ok { User := user.asString, Address := a.asString, Port := p.asString }
          else .ok { User := user.asString, Address := host.asString, Port := "22" })) ∧
    (∀ (u : String) (rp : String → String) (host : List Char),
       host.contains '@' = false → host.take 6 ≠ "ssh://".toList →
       NewHost (some u) emptySSHConfig rp host.asString =
         (if host.contains '/' then .error .unexpectedSlash
          else if host.contains ':' then
            match splitHostPort host with
            | .error e => .error e
            | .ok (a, p) => .ok { User := u, Address := a.asString, Port := p.asString }
          else .ok { User := u, Address := host.asString, Port := "22" })) ∧
    (∀ (osu : Option String) (rp : String → String),
       NewHost osu emptySSHConfig rp "ssh://deploy@10.0.0.5:2200" =
         .ok { User := "deploy", Address := "10.0.0.5", Port := "2200" }) ∧
    (∀ rp : String → String,
       NewHost (some "alice") emptySSHConfig rp "10.0.0.5" =
         .ok { User := "alice", Address := "10.0.0.5", Port := "22" }) ∧
    (∀ (u : String) (rp : String → String),
       NewHost (some u) emptySSHConfig rp "a/b" = .error .unexpectedSlash) := by
  refine ⟨?_, ?_, ?_, fun _ _ => rfl, fun _ => rfl, fun _ _ => rfl⟩
  · intro u rp user host hu hat
    apply NewHost_user_grammar u rp _ user host hu (not_mem_of_contains_eq_false hat)
    have h1 : ("ssh://".toList ++ user ++ '@' :: host).asString.toList =
        "ssh://".toList ++ user ++ '@' :: host := rfl
    rw [h1]
    have hlen : decide (("ssh://".toList ++ user ++ '@' :: host).length > 6) = true := by
      simp [List.length_append]
    have htk : (("ssh://".toList ++ user ++ '@' :: host).take 6 ==
        "ssh://".toList) = true := by
      rw [List.append_assoc, List.take_left' (show ("ssh://".toList).length = 6 by rfl)]
      exact beq_self_eq_true _
    have hcond : (decide (("ssh://".toList ++ user ++ '@' :: host).length > 6) &&
        (("ssh://".toList ++ user ++ '@' :: host).take 6 == "ssh://".toList)) = true := by
      rw [hlen, htk]
      rfl
    rw [if_pos hcond, List.append_assoc]
    exact List.drop_left' (by rfl)
  · intro u rp user host hu hat hns
    apply NewHost_user_grammar u rp _ user host hu (not_mem_of_contains_eq_false hat)
    have h1 : ((user ++ '@' :: host).asString).toList = user ++ '@' :: host := rfl
    rw [h1]
    have hbeq : ((user ++ '@' :: host).take 6 == "ssh://".toList) = false := by
      simp only [beq_eq_false_iff_ne, ne_eq]
      exact hns
    have hcond : (decide ((user ++ '@' :: host).length > 6) &&
        ((user ++ '@' :: host).take 6 == "ssh://".toList)) = false := by
      rw [hbeq, Bool.and_false]
    rw [if_neg (by rw [hcond]; exact Bool.false_ne_true)]
  · intro u rp host hat hns
    apply NewHost_nouser_grammar u rp _ host (not_mem_of_contains_eq_false hat)
    have h1 : (host.asString).toList = host := rfl
    rw [h1]
    have hbeq : (host.take 6 == "ssh://".toList) = false := by
      simp only [beq_eq_false_iff_ne, ne_eq]
      exact hns
    have hcond : (decide (host.length > 6) && (host.take 6 == "ssh://".toList)) = false := by
      rw [hbeq, Bool.and_false]
    rw [if_neg (by rw [hcond]; exact Bool.false_ne_true)]

/-- Witness for C5's general grammar at a user containing an at-sign and a
host carrying a port — the split happens at the last at-sign. -/
theorem claimC5_witness :
    NewHost (some "osu") emptySSHConfig id
        ("ssh://".toList ++ "a@b".toList ++ '@' :: "h:99".toList).asString =
      (if "h:99".toList.contains '/' then .error .unexpectedSlash
       else if "h:99".toList.contains ':' then
         match splitHostPort "h:99".toList with
         | .error e => .error e
         | .ok (a, p) =>
           .ok { User := "a@b".toList.asString, Address := a.asString,
                 Port := p.asString }
       else .ok { User := "a@b".toList.asString, Address := "h:99".toList.asString,
                  Port := "22" }) :=
  claimC5.1 "osu" id "a@b".toList "h:99".toList (by decide) (by decide)

/-- C6: for each of the three named collections, the `Names` sequence comes
from the ordered slice view of the document, in first-declaration order,
whatever order the map view delivers the same entries in. -/
theorem claimC6 (nm ni : List (String × Network)) (_hn : nm.Perm ni)
    (cm ci : List (String × Command)) (_hc : cm.Perm ci)
    (tm ti : List (String × List String)) (_ht : tm.Perm ti) :
    (Networks.UnmarshalYAML nm ni).Names = ni.map Prod.fst ∧
    (Commands.UnmarshalYAML cm ci).Names = ci.map Prod.fst ∧
    (Targets.UnmarshalYAML tm ti).Names = ti.map Prod.fst :=
  ⟨rfl, rfl, rfl⟩

/-- Witness for C6 with two-element collections whose map view is reversed
relative to the declaration order. -/
theorem claimC6_witness :
    (Networks.UnmarshalYAML [("b", {}), ("a", {})] [("a", {}), ("b", {})]).Names =
      ["a", "b"] ∧
    (Commands.UnmarshalYAML [("d", {}), ("c", {})] [("c", {}), ("d", {})]).Names =
      ["c", "d"] ∧
    (Targets.UnmarshalYAML [("f", []), ("e", [])] [("e", []), ("f", [])]).Names =
      ["e", "f"] :=
  claimC6 [("b", {}), ("a", {})] [("a", {}), ("b", {})] (by decide)
    [("d", {}), ("c", {})] [("c", {}), ("d", {})] (by decide)
    [("f", []), ("e", [])] [("e", []), ("f", [])] (by decide)

/-- C8: a successful inventory run is parsed line by line — trim, skip
blanks and `#`-comments, keep the rest as address-only hosts in line
order; on the example output exactly `host1` and `host2` result. -/
theorem claimC8 (runCmd : String → List String → Option String) (n : Network)
    (hinv : ¬n.Inventory = "")
    (hout : runCmd n.Inventory (EnvList.Slice n.Env) =
      some "host1\n# comment\n\nhost2\n") :
    Network.ParseInventory runCmd n =
      .ok [{ Address := "host1" }, { Address := "host2" }] ∧
    ∀ lines : List (List Char),
      invHosts lines = (lines.map trimSpace).filterMap
        (fun l => if l.isEmpty || l.take 1 == ['#'] then none
                  else some { Address := l.asString }) := by
  constructor
  · unfold Network.ParseInventory
    rw [if_neg hinv, hout]
    rfl
  · exact invHosts_spec

/-- Witness for C8 at a concrete network and oracle. -/
theorem claimC8_witness :
    Network.ParseInventory (invOracle "host1\n# comment\n\nhost2\n") exInvNet =
      .ok [{ Address := "host1" }, { Address := "host2" }] ∧
    ∀ lines : List (List Char),
      invHosts lines = (lines.map trimSpace).filterMap
        (fun l => if l.isEmpty || l.take 1 == ['#'] then none
                  else some { Address := l.asString }) :=
  claimC8 (invOracle "host1\n# comment\n\nhost2\n") exInvNet (by decide) rfl

/-- C9: when the subprocess for entry `i` fails, resolution stops with an
error carrying entry `i`'s key; entries before `i` keep their resolved
values, entries from `i` on keep their raw values, and exactly the scripts
for entries `0..i` were run. -/
theorem claimC9 (sh : String → Option String) (e : EnvList) (i : Nat)
    (outs : List String)
    (hlen : outs.length = i) (hi : i < e.length)
    (hok : ∀ j, j < i → sh (scriptFor e j) = outs.get? j)
    (hfail : sh (scriptFor e i) = none) :
    EnvList.ResolveValuesRun sh e =
      (List.zipWith substOut (e.take i) outs ++ e.drop i,
       (List.range (i + 1)).map (scriptFor e),
       some ("resolving env var " ++
         ((e.drop i).headD { Key := "", Value := "" }).Key ++ " failed")) := by
  have h := resolveLoop_fail sh e "" i outs hlen hi
    (by
      intro j hj
      rw [String.empty_append]
      exact hok j hj)
    (by
      rw [String.empty_append]
      exact hfail)
  rw [EnvList.ResolveValuesRun, h]
  have hm : (List.range (i + 1)).map (fun j => "" ++ scriptFor e j) =
      (List.range (i + 1)).map (scriptFor e) :=
    List.map_congr_left (fun j _ => String.empty_append _)
  rw [hm]

/-- Witness for C9 at a one-entry chain and an always-failing oracle. -/
theorem claimC9_witness :
    EnvList.ResolveValuesRun (fun _ => none) [{ Key := "A", Value := "a" }] =
      (List.zipWith substOut ([{ Key := "A", Value := "a" }].take 0) [] ++
         ([{ Key := "A", Value := "a" }] : EnvList).drop 0,
       (List.range 1).map (scriptFor [{ Key := "A", Value := "a" }]),
       some ("resolving env var " ++
         ((([{ Key := "A", Value := "a" }] : EnvList).drop 0).headD
           { Key := "", Value := "" }).Key ++ " failed")) :=
  claimC9 (fun _ => none) [{ Key := "A", Value := "a" }] 0 [] rfl (by decide)
    (fun j hj => absurd hj (Nat.not_lt_zero j)) rfl

/-- C10: inventory output not ending in a newline loses its final line — a
buffer with no newline yields no lines at all, and on `"host1\nhost2"` only
`host1` survives. -/
theorem claimC10 (runCmd : String → List String → Option String) (n : Network)
    (hinv : ¬n.Inventory = "")
    (hout : runCmd n.Inventory (EnvList.Slice n.Env) = some "host1\nhost2") :
    Network.ParseInventory runCmd n = .ok [{ Address := "host1" }] ∧
    ∀ cs : List Char, cs.contains '\n' = false → linesTerminated cs = [] := by
  constructor
  · unfold Network.ParseInventory
    rw [if_neg hinv, hout]
    rfl
  · exact fun cs h => linesTerminated_no_newline h

/-- Witness for C10 at a concrete network and oracle. -/
theorem claimC10_witness :
    Network.ParseInventory (invOracle "host1\nhost2") exInvNet =
      .ok [{ Address := "host1" }] ∧
    ∀ cs : List Char, cs.contains '\n' = false → linesTerminated cs = [] :=
  claimC10 (invOracle "host1\nhost2") exInvNet (by decide) rfl
